import Mathlib

/-!
Verification of the StandX maker-points bot against its specification.

The development shallowly embeds the bot's decision code in Lean:

* decimal arithmetic (decimal.js) is modelled by exact rationals;
* timestamps (Date.now) are integers (milliseconds);
* asynchronous venue calls are modelled by passing their results in
  explicitly as environment records, and the side effects a method would
  perform (place, cancel, close, disconnect, stop timers) are returned as
  an explicit action trace;
* every definition follows the corresponding TypeScript method of
  src/bot (OrderManager, MakerPointsBot) statement by statement.
-/

/-- Order side, as in the TypeScript union type OrderSide. -/
inductive OrderSide : Type
  | buy
  | sell
deriving DecidableEq, Repr

/-- Order status, as in the TypeScript union type OrderStatus
(OPEN / PARTIALLY_FILLED / FILLED / CANCELED / FAILED). -/
inductive OrderStatus : Type
  | openOrd
  | partFilled
  | filled
  | canceled
  | failed
deriving DecidableEq, Repr

/-- Tracked order information (the OrderInfo interface). -/
structure OrderInfo : Type where
  orderId : Nat
  side : OrderSide
  qty : ℚ
  price : ℚ
  filledQty : ℚ
  status : OrderStatus
deriving DecidableEq, Repr

/-- Trading mode (both / buy / sell). -/
inductive TradingMode : Type
  | both
  | buyOnly
  | sellOnly
deriving DecidableEq, Repr

/-- Volatility regime of the spread guard. -/
inductive Regime : Type
  | low
  | normal
  | high
deriving DecidableEq, Repr

/-- Spread-guard configuration (the spreadGuard section of the config). -/
structure SpreadGuardConfig : Type where
  jumpSpreadBp : ℚ
  maxSpreadBp : ℚ
  basisDiffBp : ℚ
  basisDiffGuardMultiplier : ℚ
  lookbackSamples : Nat
  quantileSamples : Nat
  maxQuantile : ℚ
  volLookbackSamples : Nat
  volHighThresholdBp : ℚ
  volLowThresholdBp : ℚ
  highVolJumpMultiplier : ℚ
  highVolMaxMultiplier : ℚ
  lowVolJumpMultiplier : ℚ
  lowVolMaxMultiplier : ℚ
  cooldownMs : Nat
deriving DecidableEq, Repr

/-- Bot configuration (the trading section of the config plus the venue
tick size, which OrderManager reads from the client). -/
structure BotConfig : Type where
  mode : TradingMode
  orderSizeBtc : ℚ
  orderDistanceBp : ℚ
  minDistanceBp : ℚ
  maxDistanceBp : ℚ
  replaceDeadZoneBp : ℚ
  minReplaceIntervalMs : Nat
  tickSize : ℚ
  sg : SpreadGuardConfig
deriving DecidableEq, Repr

/-- The mutable bot state (the BotState record plus the private fields of
MakerPointsBot that the decision code reads and writes). -/
structure BotState : Type where
  isRunning : Bool
  stopRequested : Bool
  markPrice : ℚ
  position : ℚ
  buyOrder : Option OrderInfo
  sellOrder : Option OrderInfo
  lastReplaceBuy : ℤ
  lastReplaceSell : ℤ
  lastPositionCheckAt : ℤ
  spreadSamples : List ℚ
  spreadGuardCooldownUntil : ℤ
  ordersPlaced : Nat
  ordersCanceled : Nat
  ordersFilled : Nat
deriving DecidableEq, Repr

/-- Externally visible commands the bot issues to the venue / runtime.
Each constructor corresponds to one side-effecting call in the source. -/
inductive BotAction : Type
  | placeOrder (side : OrderSide) (qty : ℚ) (price : ℚ) (reduceOnly : Bool) (market : Bool)
  | cancelOrder (orderId : Nat)
  | cancelAll
  | closePosition (side : OrderSide) (qty : ℚ)
  | disconnect
  | stopTimers
deriving DecidableEq, Repr

/-- The opposite side (the ternary side === buy ? sell : buy). -/
def opposite : OrderSide → OrderSide
  | .buy => .sell
  | .sell => .buy

/-- The side-indexed order slot of the state. -/
def slot (s : BotState) : OrderSide → Option OrderInfo
  | .buy => s.buyOrder
  | .sell => s.sellOrder

/-- Write the side-indexed order slot. -/
def setSlot (s : BotState) : OrderSide → Option OrderInfo → BotState
  | .buy, o => { s with buyOrder := o }
  | .sell, o => { s with sellOrder := o }

/-- The side-indexed last-replace timestamp (state.lastReplaceAt). -/
def lastReplaceAt (s : BotState) : OrderSide → ℤ
  | .buy => s.lastReplaceBuy
  | .sell => s.lastReplaceSell

/-- Write the side-indexed last-replace timestamp. -/
def setLastReplace (s : BotState) : OrderSide → ℤ → BotState
  | .buy, t => { s with lastReplaceBuy := t }
  | .sell, t => { s with lastReplaceSell := t }

/-- Decimal.abs modelled computably on the rationals (so that concrete
states evaluate by kernel reduction); equal to the lattice abs. -/
def ratAbs (x : ℚ) : ℚ :=
  if x < 0 then -x else x

theorem ratAbs_eq_abs (x : ℚ) : ratAbs x = |x| := by
  unfold ratAbs
  split
  · exact (abs_of_neg (by assumption)).symm
  · exact (abs_of_nonneg (not_lt.mp (by assumption))).symm

/-- Whether the trading mode quotes a given side
(mode === both or mode === side). -/
def modeNeeds : TradingMode → OrderSide → Bool
  | .both, _ => true
  | .buyOnly, .buy => true
  | .buyOnly, .sell => false
  | .sellOnly, .sell => true
  | .sellOnly, .buy => false

/-- decimal.js ROUND_HALF_UP of a rational to an integer: round to the
nearest integer, ties away from zero. -/
def roundHalfUp (x : ℚ) : ℤ :=
  if 0 ≤ x then ⌊x + 1/2⌋ else -⌊-x + 1/2⌋

/-- OrderManager.roundToTickSize: divide by the tick size, round half-up
to an integer number of ticks, multiply back. -/
def roundToTickSize (tick price : ℚ) : ℚ :=
  ((roundHalfUp (price / tick) : ℤ) : ℚ) * tick

/-- OrderManager.calculateOrderPrice: reference price times
(1 - bp/10000) for a buy and (1 + bp/10000) for a sell, rounded to the
tick size. -/
def calculateOrderPrice (tick : ℚ) (side : OrderSide) (markPrice distBp : ℚ) : ℚ :=
  let multiplier : ℚ := if side = .buy then 1 - distBp / 10000 else 1 + distBp / 10000
  roundToTickSize tick (markPrice * multiplier)

/-- The distance in basis points between the mark price and an order
price, exactly as computed in checkAndReplaceOrders and
isPriceWithinThreshold: markPrice.minus(price).abs().div(price).mul(10000). -/
def distanceBp (markPrice orderPrice : ℚ) : ℚ :=
  ratAbs (markPrice - orderPrice) / orderPrice * 10000

/-- Distance in basis points measured against the reference price used to
compute the order (denominator markPrice instead of orderPrice).  This is
the quantity the specification's property section describes; it is not
the evaluator's formula. -/
def referenceDistanceBp (markPrice orderPrice : ℚ) : ℚ :=
  ratAbs (markPrice - orderPrice) / markPrice * 10000

/-- OrderManager.getCurrentPosition: the venue position query, with a
thrown error (modelled as none) caught and replaced by Decimal(0). -/
def getCurrentPosition (queryResult : Option ℚ) : ℚ :=
  match queryResult with
  | some p => p
  | none => 0

/-- The nonzero-position test of the safety check in
checkAndReplaceOrders and handlePositionUpdate:
position.abs().gte(new Decimal(0.00001)). -/
def nonZeroPositionDetected (p : ℚ) : Bool :=
  1/100000 ≤ ratAbs p

theorem slot_setSlot_same (s : BotState) (side : OrderSide) (o : Option OrderInfo) :
    slot (setSlot s side o) side = o := by
  cases side <;> rfl

/-- Closing mode of OrderManager.closePosition (market / limit / adaptive). -/
inductive CloseMode : Type
  | market
  | limit
  | adaptive
deriving DecidableEq, Repr

/-- Results of the venue calls performed while closing a position: the
limit placement, the wait for the limit fill, the market placement and
the wait for the market fill.  none models a rejected placement
(placeOrder returning null) or a wait that timed out. -/
structure CloseEnv : Type where
  limitPlace : Option OrderInfo
  limitWait : Option OrderInfo
  marketPlace : Option OrderInfo
  marketWait : Option OrderInfo
deriving DecidableEq, Repr

/-- OrderManager.closeWithMarketOrder: place a reduce-only market order;
succeed when it reports FILLED immediately, otherwise wait briefly and
succeed only when the wait confirms FILLED. -/
def closeWithMarketOrder (env : CloseEnv) : Bool :=
  match env.marketPlace with
  | none => false
  | some result =>
    if result.status = .filled then true
    else
      match env.marketWait with
      | some filledOrder => filledOrder.status = .filled
      | none => false

/-- OrderManager.closePosition: in market mode close with a market order;
otherwise require a price, place a reduce-only limit order, wait for the
fill, and on timeout cancel it and fall back to the market close.  A
rejected limit placement returns false directly. -/
def closePosition (mode : CloseMode) (price : Option ℚ) (env : CloseEnv) : Bool :=
  if mode = .market then closeWithMarketOrder env
  else
    match price with
    | none => false
    | some _ =>
      match env.limitPlace with
      | none => false
      | some _ =>
        match env.limitWait with
        | some filledOrder =>
          if filledOrder.status = .filled then true else closeWithMarketOrder env
        | none => closeWithMarketOrder env

/-- Insert into a sorted list of rationals (helper for the ascending
numeric sort used by calculateSpreadQuantile). -/
def insertSorted (x : ℚ) : List ℚ → List ℚ
  | [] => [x]
  | y :: ys => if x ≤ y then x :: y :: ys else y :: insertSorted x ys

/-- Ascending numeric sort, modelling samples.sort((a, b) => a - b). -/
def sortQ : List ℚ → List ℚ
  | [] => []
  | x :: xs => insertSorted x (sortQ xs)

/-- MakerPointsBot.getRecentSamples: the last `limit` spread samples,
or [] when the limit is not positive. -/
def getRecentSamples (limit : Nat) (samples : List ℚ) : List ℚ :=
  if limit = 0 then [] else samples.drop (samples.length - limit)

/-- MakerPointsBot.updateSpreadSamples: push the new sample and drop the
oldest one once the buffer exceeds the largest configured window. -/
def updateSpreadSamples (sg : SpreadGuardConfig) (samples : List ℚ) (spreadBp : ℚ) : List ℚ :=
  let pushed := samples ++ [spreadBp]
  let maxSamples := max (max sg.lookbackSamples sg.quantileSamples) sg.volLookbackSamples
  if maxSamples < pushed.length then pushed.tail else pushed

/-- MakerPointsBot.calculateSpreadBaseline: arithmetic mean of the most
recent lookbackSamples, or 0 when there are none. -/
def calculateSpreadBaseline (sg : SpreadGuardConfig) (samples : List ℚ) : ℚ :=
  let recent := getRecentSamples sg.lookbackSamples samples
  if recent = [] then 0 else recent.sum / (recent.length : ℚ)

/-- MakerPointsBot.calculateSpreadQuantile: clamp the quantile to [0, 1],
sort the samples ascending, and linearly interpolate between the order
statistics around the rank position (n - 1) * quantile. -/
def calculateSpreadQuantile (samples : List ℚ) (quantile : ℚ) : ℚ :=
  if samples = [] then 0
  else
    let clampedQuantile := min 1 (max 0 quantile)
    let sorted := sortQ samples
    if sorted.length = 1 then sorted.getD 0 0
    else
      let position := ((sorted.length - 1 : ℕ) : ℚ) * clampedQuantile
      let lowerIndex := (⌊position⌋).toNat
      let upperIndex := (⌈position⌉).toNat
      let lowerValue := sorted.getD lowerIndex 0
      let upperValue := sorted.getD upperIndex 0
      let weight := position - (lowerIndex : ℚ)
      lowerValue + (upperValue - lowerValue) * weight

/-- MakerPointsBot.calculateDynamicMaxSpread: the configured quantile of
the most recent quantileSamples; when the quantile value is not positive
(in particular when there are no samples at all) fall back to the
configured absolute max spread. -/
def calculateDynamicMaxSpread (sg : SpreadGuardConfig) (samples : List ℚ) : ℚ :=
  let recent := getRecentSamples sg.quantileSamples samples
  let quantileValue := calculateSpreadQuantile recent sg.maxQuantile
  if 0 < quantileValue then quantileValue else sg.maxSpreadBp

/-- Arithmetic mean of a list of rationals (values.reduce(sum) / length). -/
def listMean (l : List ℚ) : ℚ :=
  l.sum / (l.length : ℚ)

/-- The variance computed inside MakerPointsBot.calculateSpreadVolatility:
mean of the squared deviations from the mean (divisor n). -/
def spreadVariance (l : List ℚ) : ℚ :=
  (l.map (fun v => (v - listMean l) ^ 2)).sum / (l.length : ℚ)

/-- MakerPointsBot.calculateSpreadVolatility: 0 with fewer than two
samples, otherwise the square root of the variance of the samples. -/
noncomputable def calculateSpreadVolatility (l : List ℚ) : ℝ :=
  if l.length < 2 then 0 else Real.sqrt (spreadVariance l)

/-- MakerPointsBot.determineSpreadRegime: high when the volatility is at
least the high threshold, low when it is at most the low threshold,
normal otherwise. -/
noncomputable def determineSpreadRegime (volatility : ℝ) (high low : ℚ) : Regime :=
  if (high : ℝ) ≤ volatility then .high
  else if volatility ≤ (low : ℝ) then .low
  else .normal

/-- Result of MakerPointsBot.getRegimeAdjustments. -/
structure RegimeAdjustments : Type where
  regime : Regime
  volatility : ℝ
  jumpMultiplier : ℚ
  maxMultiplier : ℚ

/-- MakerPointsBot.getRegimeAdjustments: classify the regime from the
volatility of the most recent volLookbackSamples and pick the configured
pair of threshold multipliers (1 in the normal regime). -/
noncomputable def getRegimeAdjustments (sg : SpreadGuardConfig) (samples : List ℚ) :
    RegimeAdjustments :=
  let volSamples := getRecentSamples sg.volLookbackSamples samples
  let volatility := calculateSpreadVolatility volSamples
  let regime := determineSpreadRegime volatility sg.volHighThresholdBp sg.volLowThresholdBp
  match regime with
  | .high => ⟨.high, volatility, sg.highVolJumpMultiplier, sg.highVolMaxMultiplier⟩
  | .low => ⟨.low, volatility, sg.lowVolJumpMultiplier, sg.lowVolMaxMultiplier⟩
  | .normal => ⟨.normal, volatility, 1, 1⟩

/-- The effective jump threshold and max-spread threshold computed in
checkBinanceSpread: the configured jump base and the dynamic max spread,
each multiplied by its regime multiplier and by the basis-diff softening
multiplier. -/
noncomputable def spreadGuardThresholds (sg : SpreadGuardConfig) (samples : List ℚ)
    (basisDiffActive : Bool) : ℚ × ℚ :=
  let adj := getRegimeAdjustments sg samples
  let basisDiffMultiplier := if basisDiffActive then sg.basisDiffGuardMultiplier else 1
  (sg.jumpSpreadBp * adj.jumpMultiplier * basisDiffMultiplier,
   calculateDynamicMaxSpread sg samples * adj.maxMultiplier * basisDiffMultiplier)

/-- MakerPointsBot.isSpreadGuardCoolingDown: Date.now() < cooldownUntil. -/
def isSpreadGuardCoolingDown (now : ℤ) (s : BotState) : Bool :=
  now < s.spreadGuardCooldownUntil

/-- Results of the venue calls performed by one replaceOrder run: the
cancel result and the placement result (none = placeOrder returned null). -/
structure ReplaceEnv : Type where
  cancelOk : Bool
  placeResult : Option OrderInfo
deriving DecidableEq, Repr

/-- MakerPointsBot.replaceOrder: drop the trigger silently when the side
was replaced less than minReplaceIntervalMs ago; otherwise cancel the
existing order (best effort), compute a fresh target price from the
current mark price, place the new order, record the replace timestamp,
and update the slot only when the placement succeeded. -/
def replaceOrder (cfg : BotConfig) (side : OrderSide) (now : ℤ) (env : ReplaceEnv)
    (s : BotState) : BotState × List BotAction :=
  if now - lastReplaceAt s side < (cfg.minReplaceIntervalMs : ℤ) then (s, [])
  else
    match slot s side with
    | none => (s, [])
    | some order =>
      let s1 := if env.cancelOk then { s with ordersCanceled := s.ordersCanceled + 1 } else s
      let newPrice := calculateOrderPrice cfg.tickSize side s.markPrice cfg.orderDistanceBp
      let acts := [BotAction.cancelOrder order.orderId,
                   BotAction.placeOrder side cfg.orderSizeBtc newPrice false false]
      let s2 := setLastReplace s1 side now
      match env.placeResult with
      | some newOrder =>
        (setSlot { s2 with ordersPlaced := s2.ordersPlaced + 1 } side (some newOrder), acts)
      | none => (s2, acts)

/-- Whether a replace trigger at time `now` actually executes (it is not
throttled and the side has an order to replace). -/
def replaceExecutes (cfg : BotConfig) (side : OrderSide) (now : ℤ) (s : BotState) : Bool :=
  !(decide (now - lastReplaceAt s side < (cfg.minReplaceIntervalMs : ℤ)))
    && (slot s side).isSome

/-- Run a sequence of replace triggers through replaceOrder, collecting
the times of the triggers that actually executed. -/
def replaceRun (cfg : BotConfig) (side : OrderSide) :
    List (ℤ × ReplaceEnv) → BotState → List ℤ
  | [], _ => []
  | (t, e) :: rest, s =>
    let s' := (replaceOrder cfg side t e s).1
    if replaceExecutes cfg side t s then t :: replaceRun cfg side rest s'
    else replaceRun cfg side rest s'

/-- The replace decision of checkAndReplaceOrders for one open order:
replace when the distance is below min - deadZone or above max + deadZone. -/
def evalTriggersReplace (cfg : BotConfig) (markPrice : ℚ) (order : OrderInfo) : Bool :=
  let d := distanceBp markPrice order.price
  decide (d < cfg.minDistanceBp - cfg.replaceDeadZoneBp)
    || decide (cfg.maxDistanceBp + cfg.replaceDeadZoneBp < d)

/-- The per-side body of checkAndReplaceOrders: when the side holds an
OPEN order, compute its distance from the mark price and call
replaceOrder when it is below min - deadZone or above max + deadZone;
in the dead-zone and in the valid range, do nothing. -/
def evalSideStep (cfg : BotConfig) (side : OrderSide) (markPrice : ℚ) (now : ℤ)
    (env : ReplaceEnv) (s : BotState) : BotState × List BotAction :=
  match slot s side with
  | some order =>
    if order.status = .openOrd then
      let d := distanceBp markPrice order.price
      if d < cfg.minDistanceBp - cfg.replaceDeadZoneBp then replaceOrder cfg side now env s
      else if cfg.maxDistanceBp + cfg.replaceDeadZoneBp < d then replaceOrder cfg side now env s
      else (s, [])
    else (s, [])
  | none => (s, [])

/-- A sequence of mark-price ticks evaluated for one side: each tick
carries its arrival time, the new mark price and the environment for a
potential replace. -/
def evalSideTicks (cfg : BotConfig) (side : OrderSide) :
    List (ℤ × ℚ × ReplaceEnv) → BotState → BotState × List BotAction
  | [], s => (s, [])
  | (t, m, e) :: rest, s =>
    let out := evalSideStep cfg side m t e s
    let outRest := evalSideTicks cfg side rest out.1
    (outRest.1, out.2 ++ outRest.2)

/-- MakerPointsBot.placeInitialOrders: cancel all resting orders, then
place one order per side required by the trading mode at the target
distance from the current mark price, filling the slots on success. -/
def placeInitialOrders (cfg : BotConfig) (envBuy envSell : Option OrderInfo)
    (s : BotState) : BotState × List BotAction :=
  let afterBuy : BotState × List BotAction :=
    if modeNeeds cfg.mode .buy then
      let buyPrice := calculateOrderPrice cfg.tickSize .buy s.markPrice cfg.orderDistanceBp
      let acts := [BotAction.placeOrder .buy cfg.orderSizeBtc buyPrice false false]
      match envBuy with
      | some o => ({ s with buyOrder := some o, ordersPlaced := s.ordersPlaced + 1 }, acts)
      | none => (s, acts)
    else (s, [])
  let s1 := afterBuy.1
  let afterSell : BotState × List BotAction :=
    if modeNeeds cfg.mode .sell then
      let sellPrice := calculateOrderPrice cfg.tickSize .sell s1.markPrice cfg.orderDistanceBp
      let acts := [BotAction.placeOrder .sell cfg.orderSizeBtc sellPrice false false]
      match envSell with
      | some o => ({ s1 with sellOrder := some o, ordersPlaced := s1.ordersPlaced + 1 }, acts)
      | none => (s1, acts)
    else (s1, [])
  (afterSell.1, BotAction.cancelAll :: (afterBuy.2 ++ afterSell.2))

/-- MakerPointsBot.stop: request the stop, clear the running flag, cancel
all orders, disconnect the stream and stop the guard timers. -/
def stopBot (s : BotState) : BotState × List BotAction :=
  ({ s with stopRequested := true, isRunning := false },
   [BotAction.cancelAll, BotAction.disconnect, BotAction.stopTimers])

/-- MakerPointsBot.closeDetectedPosition: cancel all resting orders, close
the detected position with a market order on the opposing side; a failed
close stops the bot, a successful one resets the position to zero and
requotes both sides. -/
def closeDetectedPosition (cfg : BotConfig) (position : ℚ) (closed : Bool)
    (envBuy envSell : Option OrderInfo) (s : BotState) : BotState × List BotAction :=
  let positionSize := ratAbs position
  let closeSide : OrderSide := if 0 < position then .sell else .buy
  let acts := [BotAction.cancelAll, BotAction.closePosition closeSide positionSize]
  if closed = false then
    let out := stopBot s
    (out.1, acts ++ out.2)
  else
    let s1 := { s with position := 0 }
    let out := placeInitialOrders cfg envBuy envSell s1
    (out.1, acts ++ out.2)

/-- MakerPointsBot.handleOrderFilled: book the fill into the position,
issue the flattening close on the opposing side sized to the fill; a
failed close stops the bot, a successful one resets the position to zero
and then requotes the filled side through replaceOrder. -/
def handleOrderFilled (cfg : BotConfig) (side : OrderSide) (qty : ℚ) (now : ℤ)
    (closed : Bool) (renv : ReplaceEnv) (s : BotState) : BotState × List BotAction :=
  let s1 := { s with
    ordersFilled := s.ordersFilled + 1,
    position := if side = .buy then s.position + qty else s.position - qty }
  let closeAct := BotAction.closePosition (opposite side) qty
  if closed = false then
    let out := stopBot s1
    (out.1, closeAct :: out.2)
  else
    let s2 := { s1 with position := 0 }
    let out := replaceOrder cfg side now renv s2
    (out.1, closeAct :: out.2)

/-- The trigger test of MakerPointsBot.handlePositionUpdate: the position
moved from (approximately) zero to a nonzero value. -/
def positionFlipDetected (previous current : ℚ) : Bool :=
  decide (ratAbs previous < 1/100000) && nonZeroPositionDetected current

/-- MakerPointsBot.handlePositionUpdate: record the pushed position and,
when it flipped from zero to nonzero, close it immediately. -/
def handlePositionUpdate (cfg : BotConfig) (newPosition : ℚ) (now : ℤ) (closed : Bool)
    (envBuy envSell : Option OrderInfo) (s : BotState) : BotState × List BotAction :=
  let previous := s.position
  let s1 := { s with position := newPosition, lastPositionCheckAt := now }
  if positionFlipDetected previous newPosition then
    closeDetectedPosition cfg newPosition closed envBuy envSell s1
  else (s1, [])

/-- MakerPointsBot.shouldRestoreOrders: quoting is running, not stopping,
not cooling down, a mark price is known, and some side required by the
mode has no OPEN order. -/
def shouldRestoreOrders (cfg : BotConfig) (now : ℤ) (s : BotState) : Bool :=
  if !s.isRunning || s.stopRequested then false
  else if isSpreadGuardCoolingDown now s then false
  else if s.markPrice = 0 then false
  else
    let buyOpen := match s.buyOrder with
      | some o => o.status = OrderStatus.openOrd
      | none => false
    let sellOpen := match s.sellOrder with
      | some o => o.status = OrderStatus.openOrd
      | none => false
    (modeNeeds cfg.mode .buy && !buyOpen) || (modeNeeds cfg.mode .sell && !sellOpen)

/-- The interval of the periodic REST position check
(positionCheckIntervalMs = 2000). -/
def positionCheckIntervalMs : ℤ := 2000

/-- Results of the venue calls a single checkAndReplaceOrders tick may
perform: the REST position query (none = the query threw), the close
result and requote placements used when a nonzero position is detected,
the placements of a quoting restore, and the per-side replace calls. -/
structure TickEnv : Type where
  posResult : Option ℚ
  closeResult : Bool
  cdpPlaceBuy : Option OrderInfo
  cdpPlaceSell : Option OrderInfo
  restorePlaceBuy : Option OrderInfo
  restorePlaceSell : Option OrderInfo
  buyReplace : ReplaceEnv
  sellReplace : ReplaceEnv
deriving DecidableEq, Repr

/-- MakerPointsBot.checkAndReplaceOrders: skip when not running, stopping,
without a mark price, or cooling down; restore quoting after a cooldown;
run the periodic REST position safety check (a detected nonzero position
is closed and the tick ends); otherwise evaluate the buy side and then
the sell side against the distance thresholds. -/
def checkAndReplaceOrders (cfg : BotConfig) (now : ℤ) (env : TickEnv)
    (s : BotState) : BotState × List BotAction :=
  if !s.isRunning || s.stopRequested then (s, [])
  else if s.markPrice = 0 then (s, [])
  else if isSpreadGuardCoolingDown now s then (s, [])
  else if shouldRestoreOrders cfg now s then
    placeInitialOrders cfg env.restorePlaceBuy env.restorePlaceSell s
  else
    let afterPos : Option (BotState × List BotAction) × BotState :=
      if positionCheckIntervalMs ≤ now - s.lastPositionCheckAt then
        let currentPosition := getCurrentPosition env.posResult
        let s1 := { s with lastPositionCheckAt := now, position := currentPosition }
        if nonZeroPositionDetected currentPosition then
          (some (closeDetectedPosition cfg currentPosition env.closeResult
                   env.cdpPlaceBuy env.cdpPlaceSell s1), s1)
        else (none, s1)
      else (none, s)
    match afterPos.1 with
    | some out => out
    | none =>
      let s1 := afterPos.2
      let outBuy := evalSideStep cfg .buy s1.markPrice now env.buyReplace s1
      let outSell := evalSideStep cfg .sell outBuy.1.markPrice now env.sellReplace outBuy.1
      (outSell.1, outBuy.2 ++ outSell.2)

/-- The spread in basis points of a best bid / best ask pair, as computed
in checkBinanceSpread: (ask - bid) / mid * 10000 with mid the midpoint. -/
def spreadBpOf (bid ask : ℚ) : ℚ :=
  (ask - bid) / ((bid + ask) / 2) * 10000

/-- The basis difference in basis points between the venue mark price and
the reference midpoint, as computed in checkBinanceSpread. -/
def basisDiffBpOf (markPrice mid : ℚ) : ℚ :=
  if 0 < markPrice then ratAbs (markPrice - mid) / mid * 10000 else 0

/-- MakerPointsBot.checkBinanceSpread: sample the reference spread, derive
the baseline, the regime-adjusted thresholds and the basis softening;
while cooling down only the sample is recorded; otherwise fire when the
spread jumped over the baseline by at least the jump threshold (with a
positive baseline) or reached the max threshold, cancelling all orders,
clearing both slots and starting the cooldown. -/
noncomputable def checkBinanceSpread (cfg : BotConfig) (now : ℤ) (bid ask : ℚ)
    (s : BotState) : BotState × List BotAction :=
  if !s.isRunning || s.stopRequested then (s, [])
  else if bid ≤ 0 ∨ ask ≤ 0 then (s, [])
  else
    let mid := (bid + ask) / 2
    let spreadBp := spreadBpOf bid ask
    let basisDiffActive : Bool :=
      decide (0 < cfg.sg.basisDiffBp) && decide (cfg.sg.basisDiffBp ≤ basisDiffBpOf s.markPrice mid)
    let samples := updateSpreadSamples cfg.sg s.spreadSamples spreadBp
    let s1 := { s with spreadSamples := samples }
    let baseline := calculateSpreadBaseline cfg.sg samples
    let thresholds := spreadGuardThresholds cfg.sg samples basisDiffActive
    if isSpreadGuardCoolingDown now s1 then (s1, [])
    else
      let spreadJumped : Bool :=
        decide (0 < baseline) && decide (thresholds.1 ≤ spreadBp - baseline)
      let spreadTooWide : Bool := decide (thresholds.2 ≤ spreadBp)
      if spreadJumped || spreadTooWide then
        ({ s1 with buyOrder := none, sellOrder := none,
                   spreadGuardCooldownUntil := now + (cfg.sg.cooldownMs : ℤ) },
         [BotAction.cancelAll])
      else (s1, [])

/-- Modelled from the spec: linear interpolation between the order
statistics of a sorted sample list at the weighted rank position
(n - 1) * quantile.  Used only to compare the implementation's quantile
against the specification's description. -/
def quantileInterpolation (sorted : List ℚ) (q : ℚ) : ℚ :=
  let position := ((sorted.length - 1 : ℕ) : ℚ) * q
  let lowerIndex := (⌊position⌋).toNat
  let upperIndex := (⌈position⌉).toNat
  sorted.getD lowerIndex 0 +
    (sorted.getD upperIndex 0 - sorted.getD lowerIndex 0) * (position - (lowerIndex : ℚ))

theorem slot_setLastReplace (s : BotState) (side side' : OrderSide) (t : ℤ) :
    slot (setLastReplace s side t) side' = slot s side' := by
  cases side <;> cases side' <;> rfl

theorem lastReplaceAt_setLastReplace_same (s : BotState) (side : OrderSide) (t : ℤ) :
    lastReplaceAt (setLastReplace s side t) side = t := by
  cases side <;> rfl

theorem replaceOrder_isRunning (cfg : BotConfig) (side : OrderSide) (now : ℤ)
    (env : ReplaceEnv) (s : BotState) :
    (replaceOrder cfg side now env s).1.isRunning = s.isRunning := by
  unfold replaceOrder
  split
  · rfl
  · split
    · rfl
    · cases hp : env.placeResult <;> cases hc : env.cancelOk <;> cases side <;>
        simp [hp, hc, setSlot, setLastReplace]

theorem replaceOrder_stopRequested (cfg : BotConfig) (side : OrderSide) (now : ℤ)
    (env : ReplaceEnv) (s : BotState) :
    (replaceOrder cfg side now env s).1.stopRequested = s.stopRequested := by
  unfold replaceOrder
  split
  · rfl
  · split
    · rfl
    · cases hp : env.placeResult <;> cases hc : env.cancelOk <;> cases side <;>
        simp [hp, hc, setSlot, setLastReplace]

theorem replaceOrder_position (cfg : BotConfig) (side : OrderSide) (now : ℤ)
    (env : ReplaceEnv) (s : BotState) :
    (replaceOrder cfg side now env s).1.position = s.position := by
  unfold replaceOrder
  split
  · rfl
  · split
    · rfl
    · cases hp : env.placeResult <;> cases hc : env.cancelOk <;> cases side <;>
        simp [hp, hc, setSlot, setLastReplace]

theorem placeInitialOrders_isRunning (cfg : BotConfig) (envBuy envSell : Option OrderInfo)
    (s : BotState) :
    (placeInitialOrders cfg envBuy envSell s).1.isRunning = s.isRunning := by
  unfold placeInitialOrders
  cases hm : cfg.mode <;> cases envBuy <;> cases envSell <;> simp [modeNeeds]

theorem placeInitialOrders_stopRequested (cfg : BotConfig) (envBuy envSell : Option OrderInfo)
    (s : BotState) :
    (placeInitialOrders cfg envBuy envSell s).1.stopRequested = s.stopRequested := by
  unfold placeInitialOrders
  cases hm : cfg.mode <;> cases envBuy <;> cases envSell <;> simp [modeNeeds]

theorem evalSideStep_isRunning (cfg : BotConfig) (side : OrderSide) (markPrice : ℚ)
    (now : ℤ) (env : ReplaceEnv) (s : BotState) :
    (evalSideStep cfg side markPrice now env s).1.isRunning = s.isRunning := by
  unfold evalSideStep
  split
  · split
    · dsimp only
      split
      · exact replaceOrder_isRunning ..
      · split
        · exact replaceOrder_isRunning ..
        · rfl
    · rfl
  · rfl

/-- C3, first part: the replace decision fires exactly outside the
closed band between min minus dead-zone and max plus dead-zone. -/
theorem evalTriggersReplace_iff (cfg : BotConfig) (markPrice : ℚ) (order : OrderInfo) :
    evalTriggersReplace cfg markPrice order = true ↔
      distanceBp markPrice order.price < cfg.minDistanceBp - cfg.replaceDeadZoneBp ∨
      cfg.maxDistanceBp + cfg.replaceDeadZoneBp < distanceBp markPrice order.price := by
  simp [evalTriggersReplace]

/-- C3, second part: inside the band the tick is a strict no-op for the
side (no cancel, no placement, no state change). -/
theorem evalSideStep_inside_noop (cfg : BotConfig) (side : OrderSide) (markPrice : ℚ)
    (now : ℤ) (env : ReplaceEnv) (s : BotState) (o : OrderInfo)
    (hslot : slot s side = some o)
    (hlo : cfg.minDistanceBp - cfg.replaceDeadZoneBp ≤ distanceBp markPrice o.price)
    (hhi : distanceBp markPrice o.price ≤ cfg.maxDistanceBp + cfg.replaceDeadZoneBp) :
    evalSideStep cfg side markPrice now env s = (s, []) := by
  unfold evalSideStep
  simp only [hslot]
  split
  · rw [if_neg (not_lt.mpr hlo), if_neg (not_lt.mpr hhi)]
  · rfl

theorem evalSideTicks_inside_noop (cfg : BotConfig) (side : OrderSide)
    (ticks : List (ℤ × ℚ × ReplaceEnv)) (s : BotState) (o : OrderInfo)
    (hslot : slot s side = some o)
    (hin : ∀ tk ∈ ticks,
      cfg.minDistanceBp - cfg.replaceDeadZoneBp ≤ distanceBp tk.2.1 o.price ∧
      distanceBp tk.2.1 o.price ≤ cfg.maxDistanceBp + cfg.replaceDeadZoneBp) :
    evalSideTicks cfg side ticks s = (s, []) := by
  induction ticks with
  | nil => rfl
  | cons tk rest ih =>
    have hstep := evalSideStep_inside_noop cfg side tk.2.1 tk.1 tk.2.2 s o hslot
      (hin tk (List.mem_cons_self tk rest)).1 (hin tk (List.mem_cons_self tk rest)).2
    have hrest := ih (fun t ht => hin t (List.mem_cons_of_mem tk ht))
    unfold evalSideTicks
    simp [hstep, hrest]

theorem evalSideStep_outside_replaces (cfg : BotConfig) (side : OrderSide)
    (markPrice : ℚ) (now : ℤ) (env : ReplaceEnv) (s : BotState) (o : OrderInfo)
    (hslot : slot s side = some o) (hopen : o.status = .openOrd)
    (htrig : evalTriggersReplace cfg markPrice o = true) :
    evalSideStep cfg side markPrice now env s = replaceOrder cfg side now env s := by
  rw [evalTriggersReplace_iff] at htrig
  unfold evalSideStep
  simp only [hslot]
  rw [if_pos hopen]
  by_cases hd : distanceBp markPrice o.price < cfg.minDistanceBp - cfg.replaceDeadZoneBp
  · rw [if_pos hd]
  · rw [if_neg hd, if_pos (htrig.resolve_left hd)]

/-- C3: for every open order the evaluation triggers a replace exactly
when its distance leaves the band [min - deadZone, max + deadZone] (and
then the step is exactly a replaceOrder call); in the dead-zone and in
the valid zone no replace is triggered, and over every sequence of
reference-price ticks whose distances all stay inside the band the
side's slot and state are left untouched and no order commands are
issued. -/
theorem dead_zone_replace_policy :
    (∀ (cfg : BotConfig) (markPrice : ℚ) (order : OrderInfo),
      evalTriggersReplace cfg markPrice order = true ↔
        distanceBp markPrice order.price < cfg.minDistanceBp - cfg.replaceDeadZoneBp ∨
        cfg.maxDistanceBp + cfg.replaceDeadZoneBp < distanceBp markPrice order.price) ∧
    (∀ (cfg : BotConfig) (side : OrderSide) (markPrice : ℚ) (now : ℤ)
      (env : ReplaceEnv) (s : BotState) (o : OrderInfo),
      slot s side = some o → o.status = .openOrd →
      evalTriggersReplace cfg markPrice o = true →
      evalSideStep cfg side markPrice now env s = replaceOrder cfg side now env s) ∧
    (∀ (cfg : BotConfig) (side : OrderSide) (markPrice : ℚ) (now : ℤ)
      (env : ReplaceEnv) (s : BotState) (o : OrderInfo),
      slot s side = some o →
      cfg.minDistanceBp - cfg.replaceDeadZoneBp ≤ distanceBp markPrice o.price →
      distanceBp markPrice o.price ≤ cfg.maxDistanceBp + cfg.replaceDeadZoneBp →
      evalSideStep cfg side markPrice now env s = (s, [])) ∧
    (∀ (cfg : BotConfig) (side : OrderSide) (ticks : List (ℤ × ℚ × ReplaceEnv))
      (s : BotState) (o : OrderInfo),
      slot s side = some o →
      (∀ tk ∈ ticks,
        cfg.minDistanceBp - cfg.replaceDeadZoneBp ≤ distanceBp tk.2.1 o.price ∧
        distanceBp tk.2.1 o.price ≤ cfg.maxDistanceBp + cfg.replaceDeadZoneBp) →
      evalSideTicks cfg side ticks s = (s, [])) := by
  refine ⟨fun cfg m o => evalTriggersReplace_iff cfg m o,
    fun cfg side m now env s o h1 h2 h3 =>
      evalSideStep_outside_replaces cfg side m now env s o h1 h2 h3,
    fun cfg side m now env s o h1 h2 h3 =>
      evalSideStep_inside_noop cfg side m now env s o h1 h2 h3,
    fun cfg side ticks s o h1 h2 =>
      evalSideTicks_inside_noop cfg side ticks s o h1 h2⟩

/-- A sample spread-guard configuration used by concrete scenarios. -/
def sgSample : SpreadGuardConfig :=
  ⟨5, 50, 0, 1, 2, 0, 1/2, 1, 5, -1, 3/2, 3/2, 4/5, 4/5, 5000⟩

/-- A sample bot configuration used by concrete scenarios (band 5..15 bp,
dead-zone 2 bp, throttle 1000 ms, tick size 1). -/
def cfgSample : BotConfig :=
  ⟨.both, 1, 10, 5, 15, 2, 1000, 1, sgSample⟩

/-- A resting buy order used by concrete scenarios. -/
def orderSample : OrderInfo := ⟨7, .buy, 1, 100, 0, .openOrd⟩

/-- A running state with one open buy order, used by concrete scenarios. -/
def stateSample : BotState := ⟨true, false, 100, 0, some orderSample, none, 0, 0, 0, [], 0, 0, 0, 0⟩

/-- Witness for dead_zone_replace_policy: a buy order at price 100 with
band [5 - 2, 15 + 2] survives two ticks at distances 5 bp and 8 bp
unchanged. -/
theorem dead_zone_replace_policy_witness :
    evalSideTicks cfgSample .buy
      [(1, 1001/10, ⟨true, none⟩), (2, 10008/100, ⟨true, none⟩)] stateSample = (stateSample, []) := by
  refine dead_zone_replace_policy.2.2.2 cfgSample .buy _ stateSample orderSample rfl ?_
  intro tk htk
  simp only [List.mem_cons, List.mem_singleton, List.not_mem_nil, or_false] at htk
  rcases htk with rfl | rfl <;>
    constructor <;> norm_num [distanceBp, ratAbs, orderSample, cfgSample]

theorem replaceOrder_throttled (cfg : BotConfig) (side : OrderSide) (now : ℤ)
    (env : ReplaceEnv) (s : BotState)
    (h : now - lastReplaceAt s side < (cfg.minReplaceIntervalMs : ℤ)) :
    replaceOrder cfg side now env s = (s, []) := by
  unfold replaceOrder
  rw [if_pos h]

theorem replaceOrder_not_executes (cfg : BotConfig) (side : OrderSide) (now : ℤ)
    (env : ReplaceEnv) (s : BotState)
    (h : replaceExecutes cfg side now s = false) :
    replaceOrder cfg side now env s = (s, []) := by
  unfold replaceExecutes at h
  rw [Bool.and_eq_false_iff] at h
  rcases h with h | h
  · exact replaceOrder_throttled cfg side now env s
      (by simpa using h)
  · unfold replaceOrder
    split
    · rfl
    · have hn : slot s side = none := by
        cases hs : slot s side
        · rfl
        · rw [hs] at h
          simp at h
      rw [hn]

theorem replaceOrder_executes_lastReplace (cfg : BotConfig) (side : OrderSide) (now : ℤ)
    (env : ReplaceEnv) (s : BotState)
    (h : replaceExecutes cfg side now s = true) :
    lastReplaceAt (replaceOrder cfg side now env s).1 side = now := by
  unfold replaceExecutes at h
  rw [Bool.and_eq_true] at h
  obtain ⟨h1, h2⟩ := h
  unfold replaceOrder
  rw [if_neg (by simpa using h1)]
  obtain ⟨o, ho⟩ := Option.isSome_iff_exists.mp h2
  rw [ho]
  cases hp : env.placeResult
  · exact lastReplaceAt_setLastReplace_same ..
  · dsimp only
    rename_i newOrder
    have : ∀ s' : BotState,
        lastReplaceAt (setSlot { s' with ordersPlaced := s'.ordersPlaced + 1 } side (some newOrder)) side
          = lastReplaceAt s' side := by
      intro s'
      cases side <;> rfl
    rw [this]
    exact lastReplaceAt_setLastReplace_same ..

theorem replaceExecutes_le (cfg : BotConfig) (side : OrderSide) (now : ℤ) (s : BotState)
    (h : replaceExecutes cfg side now s = true) :
    lastReplaceAt s side + (cfg.minReplaceIntervalMs : ℤ) ≤ now := by
  unfold replaceExecutes at h
  rw [Bool.and_eq_true] at h
  have := h.1
  simp only [Bool.not_eq_true', decide_eq_false_iff_not, not_lt] at this
  omega

theorem replaceRun_head_bound (cfg : BotConfig) (side : OrderSide) :
    ∀ (triggers : List (ℤ × ReplaceEnv)) (s : BotState) (x : ℤ),
      (replaceRun cfg side triggers s).head? = some x →
      lastReplaceAt s side + (cfg.minReplaceIntervalMs : ℤ) ≤ x := by
  intro triggers
  induction triggers with
  | nil => intro s x hx; simp [replaceRun] at hx
  | cons te rest ih =>
    intro s x hx
    unfold replaceRun at hx
    by_cases hex : replaceExecutes cfg side te.1 s = true
    · rw [if_pos hex] at hx
      simp only [List.head?_cons, Option.some_inj] at hx
      subst hx
      exact replaceExecutes_le cfg side te.1 s hex
    · rw [if_neg hex] at hx
      rw [replaceOrder_not_executes cfg side te.1 te.2 s (by simpa using hex)] at hx
      exact ih s x hx

/-- C4: a trigger arriving less than minReplaceIntervalMs after the
side's last replace timestamp is silently dropped (no cancel, no
placement, no state change), and over every sequence of triggers the
times at which a replace actually executes are pairwise at least
minReplaceIntervalMs apart. -/
theorem replace_throttling :
    (∀ (cfg : BotConfig) (side : OrderSide) (now : ℤ) (env : ReplaceEnv) (s : BotState),
      now - lastReplaceAt s side < (cfg.minReplaceIntervalMs : ℤ) →
      replaceOrder cfg side now env s = (s, [])) ∧
    (∀ (cfg : BotConfig) (side : OrderSide) (triggers : List (ℤ × ReplaceEnv)) (s : BotState),
      List.Chain' (fun a b => a + (cfg.minReplaceIntervalMs : ℤ) ≤ b)
        (replaceRun cfg side triggers s)) := by
  constructor
  · exact replaceOrder_throttled
  · intro cfg side triggers
    induction triggers with
    | nil => intro s; simp [replaceRun]
    | cons te rest ih =>
      intro s
      unfold replaceRun
      by_cases hex : replaceExecutes cfg side te.1 s = true
      · rw [if_pos hex]
        rw [List.chain'_cons']
        constructor
        · intro y hy
          have hb := replaceRun_head_bound cfg side rest
            (replaceOrder cfg side te.1 te.2 s).1 y hy
          rw [replaceOrder_executes_lastReplace cfg side te.1 te.2 s hex] at hb
          exact hb
        · exact ih _
      · rw [if_neg hex]
        exact ih _

/-- Witness for replace_throttling: with a 1000 ms interval and a last
replace at t = 4500, a trigger at t = 5000 is dropped without any state
change or action. -/
theorem replace_throttling_witness :
    replaceOrder cfgSample .buy 5000 ⟨true, none⟩
        { stateSample with lastReplaceBuy := 4500 }
      = ({ stateSample with lastReplaceBuy := 4500 }, []) := by
  refine replace_throttling.1 cfgSample .buy 5000 ⟨true, none⟩ _ ?_
  norm_num [lastReplaceAt, cfgSample]

/-- C9 counterexample: in the concrete scenario a replace whose placement
fails (placeOrder returns null) leaves the buy slot still holding the
old, already-canceled order - the slot is not left empty as the claim
states.  (Trigger at t = 5000, last replace at t = 0, so the trigger is
not throttled; the cancel succeeds and the placement returns null.) -/
theorem replace_failure_slot_not_empty :
    (replaceOrder cfgSample .buy 5000 ⟨true, none⟩ stateSample).1.buyOrder
      = some orderSample ∧
    (replaceOrder cfgSample .buy 5000 ⟨true, none⟩ stateSample).1.buyOrder ≠ none := by
  have h : (replaceOrder cfgSample .buy 5000 ⟨true, none⟩ stateSample).1.buyOrder
      = some orderSample := by
    unfold replaceOrder
    norm_num [cfgSample, stateSample, lastReplaceAt, slot, setLastReplace]
  exact ⟨h, by rw [h]; exact Option.some_ne_none _⟩

/-- C9 amended: when the placement of the replacement order fails, the
side's slot keeps the previous (canceled) order unchanged; once that
order's status is no longer OPEN, the quoting-restore check reports the
side as missing, so the next restore retries placement for that side. -/
theorem replace_failure_slot_retained :
    (∀ (cfg : BotConfig) (side : OrderSide) (now : ℤ) (env : ReplaceEnv)
      (s : BotState) (o : OrderInfo),
      slot s side = some o → env.placeResult = none →
      slot (replaceOrder cfg side now env s).1 side = some o) ∧
    (∀ (cfg : BotConfig) (now : ℤ) (s : BotState) (side : OrderSide),
      s.isRunning = true → s.stopRequested = false →
      isSpreadGuardCoolingDown now s = false → s.markPrice ≠ 0 →
      modeNeeds cfg.mode side = true →
      (∀ o, slot s side = some o → o.status ≠ .openOrd) →
      shouldRestoreOrders cfg now s = true) := by
  constructor
  · intro cfg side now env s o hslot hp
    unfold replaceOrder
    split
    · rw [hslot]
    · rw [hslot]
      dsimp only
      rw [hp]
      cases hc : env.cancelOk <;>
        simp only [if_pos, if_neg, Bool.false_eq_true, if_false, if_true] <;>
        rw [slot_setLastReplace] <;>
        exact hslot
  · intro cfg now s side h1 h2 h3 h4 h5 h6
    unfold shouldRestoreOrders
    rw [h1, h2, h3]
    simp only [Bool.not_true, Bool.false_or, Bool.false_eq_true, if_false, if_neg h4]
    cases side
    · have hopen : (match s.buyOrder with
          | some o => decide (o.status = OrderStatus.openOrd)
          | none => false) = false := by
        cases hb : s.buyOrder with
        | none => rfl
        | some o => simpa using h6 o (by simpa [slot] using hb)
      rw [hopen, h5]
      rfl
    · have hopen : (match s.sellOrder with
          | some o => decide (o.status = OrderStatus.openOrd)
          | none => false) = false := by
        cases hb : s.sellOrder with
        | none => rfl
        | some o => simpa using h6 o (by simpa [slot] using hb)
      rw [hopen, h5]
      simp

/-- Witness for replace_failure_slot_retained: the concrete failed
replace keeps the old order in the slot, and with that order marked
CANCELED the restore check reports the buy side as missing. -/
theorem replace_failure_slot_retained_witness :
    slot (replaceOrder cfgSample .buy 5000 ⟨true, none⟩ stateSample).1 .buy
        = some orderSample ∧
    shouldRestoreOrders cfgSample 0
        { stateSample with buyOrder := some { orderSample with status := .canceled } }
      = true := by
  constructor
  · exact replace_failure_slot_retained.1 cfgSample .buy 5000 ⟨true, none⟩
      stateSample orderSample rfl rfl
  · refine replace_failure_slot_retained.2 cfgSample 0 _ .buy rfl rfl rfl ?_ rfl ?_
    · norm_num [stateSample]
    · intro o ho
      simp only [slot, stateSample] at ho
      rw [← Option.some_inj.mp ho]
      simp

/-- C1: in handleOrderFilled every placement in the emitted command
sequence can only occur when the flattening close returned true, strictly
after the close command (which is always the first command issued), and
with the net position already reset to zero. -/
theorem flatten_precedes_requote (cfg : BotConfig) (side : OrderSide) (qty : ℚ)
    (now : ℤ) (closed : Bool) (renv : ReplaceEnv) (s : BotState)
    (j : ℕ) (sd : OrderSide) (q p : ℚ) (ro mk : Bool)
    (hj : ((handleOrderFilled cfg side qty now closed renv s).2).get? j
      = some (.placeOrder sd q p ro mk)) :
    closed = true ∧ 0 < j ∧
    ((handleOrderFilled cfg side qty now closed renv s).2).get? 0
      = some (.closePosition (opposite side) qty) ∧
    (handleOrderFilled cfg side qty now closed renv s).1.position = 0 := by
  cases closed with
  | false =>
    exfalso
    unfold handleOrderFilled stopBot at hj
    simp only [if_pos] at hj
    rcases j with _ | _ | _ | _ | j <;> simp at hj
  | true =>
    unfold handleOrderFilled
    unfold handleOrderFilled at hj
    simp only [Bool.true_eq_false, if_neg, if_false] at hj ⊢
    refine ⟨trivial, ?_, rfl, ?_⟩
    · rcases j with _ | j
      · simp at hj
      · exact Nat.succ_pos j
    · rw [replaceOrder_position]

/-- Witness for flatten_precedes_requote: a concrete buy fill of 0.1 BTC
whose close succeeds; the third emitted command is the requote placement,
and the theorem yields that it is preceded by the close and the position
is back to zero. -/
theorem flatten_precedes_requote_witness :
    ((handleOrderFilled cfgSample .buy (1/10) 5000 true ⟨true, none⟩ stateSample).2).get? 2
        = some (.placeOrder .buy 1 100 false false) ∧
    (0 < 2 ∧
      ((handleOrderFilled cfgSample .buy (1/10) 5000 true ⟨true, none⟩ stateSample).2).get? 0
        = some (.closePosition (opposite .buy) (1/10)) ∧
      (handleOrderFilled cfgSample .buy (1/10) 5000 true ⟨true, none⟩ stateSample).1.position
        = 0) := by
  have hj : ((handleOrderFilled cfgSample .buy (1/10) 5000 true ⟨true, none⟩ stateSample).2).get? 2
      = some (.placeOrder .buy 1 100 false false) := by
    unfold handleOrderFilled replaceOrder
    norm_num [cfgSample, stateSample, lastReplaceAt, slot, opposite,
      calculateOrderPrice, roundToTickSize, roundHalfUp]
  have h := flatten_precedes_requote cfgSample .buy (1/10) 5000 true ⟨true, none⟩
    stateSample 2 .buy 1 100 false false hj
  exact ⟨hj, h.2.1, h.2.2.1, h.2.2.2⟩

theorem closeDetectedPosition_isRunning (cfg : BotConfig) (pos : ℚ) (closed : Bool)
    (envBuy envSell : Option OrderInfo) (s : BotState) :
    (closeDetectedPosition cfg pos closed envBuy envSell s).1.isRunning
      = (closed && s.isRunning) := by
  unfold closeDetectedPosition stopBot
  cases closed with
  | false => simp
  | true => simp [placeInitialOrders_isRunning]

theorem closeDetectedPosition_stopRequested (cfg : BotConfig) (pos : ℚ) (closed : Bool)
    (envBuy envSell : Option OrderInfo) (s : BotState) :
    (closeDetectedPosition cfg pos closed envBuy envSell s).1.stopRequested
      = (!closed || s.stopRequested) := by
  unfold closeDetectedPosition stopBot
  cases closed with
  | false => simp
  | true => simp [placeInitialOrders_stopRequested]

theorem handleOrderFilled_isRunning (cfg : BotConfig) (side : OrderSide) (qty : ℚ)
    (now : ℤ) (closed : Bool) (renv : ReplaceEnv) (s : BotState) :
    (handleOrderFilled cfg side qty now closed renv s).1.isRunning
      = (closed && s.isRunning) := by
  unfold handleOrderFilled stopBot
  cases closed with
  | false => simp
  | true => simp [replaceOrder_isRunning]

theorem handlePositionUpdate_isRunning (cfg : BotConfig) (newPosition : ℚ) (now : ℤ)
    (closed : Bool) (envBuy envSell : Option OrderInfo) (s : BotState) :
    (handlePositionUpdate cfg newPosition now closed envBuy envSell s).1.isRunning
      = ((!positionFlipDetected s.position newPosition || closed) && s.isRunning) := by
  unfold handlePositionUpdate
  cases hflip : positionFlipDetected s.position newPosition with
  | false => simp [hflip]
  | true => simp [hflip, closeDetectedPosition_isRunning]

theorem checkBinanceSpread_isRunning (cfg : BotConfig) (now : ℤ) (bid ask : ℚ)
    (s : BotState) :
    (checkBinanceSpread cfg now bid ask s).1.isRunning = s.isRunning := by
  unfold checkBinanceSpread
  split
  · rfl
  · split
    · rfl
    · dsimp only
      split
      · rfl
      · split
        · rfl
        · rfl

/-- The condition under which a checkAndReplaceOrders tick runs the
periodic REST position safety check and finds a nonzero position: the
tick is live (running, not stopping, priced, not cooling down, not
restoring), the check is due, and the (error-defaulted) queried position
is at least the dust threshold. -/
def positionCheckFires (cfg : BotConfig) (now : ℤ) (env : TickEnv) (s : BotState) : Bool :=
  s.isRunning && !s.stopRequested && !(decide (s.markPrice = 0))
    && !(isSpreadGuardCoolingDown now s) && !(shouldRestoreOrders cfg now s)
    && decide (positionCheckIntervalMs ≤ now - s.lastPositionCheckAt)
    && nonZeroPositionDetected (getCurrentPosition env.posResult)

theorem checkAndReplaceOrders_isRunning (cfg : BotConfig) (now : ℤ) (env : TickEnv)
    (s : BotState) :
    (checkAndReplaceOrders cfg now env s).1.isRunning
      = ((!positionCheckFires cfg now env s || env.closeResult) && s.isRunning) := by
  unfold checkAndReplaceOrders positionCheckFires
  cases hrun : s.isRunning with
  | false => simp [hrun]
  | true =>
    cases hstop : s.stopRequested with
    | true => simp [hrun, hstop]
    | false =>
      by_cases hmp : s.markPrice = 0
      · simp [hrun, hstop, hmp]
      · by_cases hcool : isSpreadGuardCoolingDown now s = true
        · simp [hrun, hstop, hmp, hcool]
        · by_cases hres : shouldRestoreOrders cfg now s = true
          · simp [hrun, hstop, hmp, hcool, hres, placeInitialOrders_isRunning]
          · by_cases hdue : positionCheckIntervalMs ≤ now - s.lastPositionCheckAt
            · cases hnz : nonZeroPositionDetected (getCurrentPosition env.posResult) with
              | true =>
                simp [hrun, hstop, hmp, hcool, hres, hdue, hnz,
                  closeDetectedPosition_isRunning]
              | false =>
                simp [hrun, hstop, hmp, hcool, hres, hdue, hnz, evalSideStep_isRunning]
            · simp [hrun, hstop, hmp, hcool, hres, hdue, evalSideStep_isRunning]

theorem closeWithMarketOrder_false_iff (env : CloseEnv) :
    closeWithMarketOrder env = false ↔
      env.marketPlace = none ∨
      ∃ r, env.marketPlace = some r ∧ r.status ≠ .filled ∧
        (∀ f, env.marketWait = some f → f.status ≠ .filled) := by
  unfold closeWithMarketOrder
  cases hp : env.marketPlace with
  | none => simp
  | some r =>
    by_cases hr : r.status = .filled
    · simp [hr]
    · cases hw : env.marketWait with
      | none => simp [hr]
      | some f =>
        by_cases hf : f.status = .filled <;> simp [hr, hf]

theorem closePosition_false_iff (mode : CloseMode) (price : Option ℚ) (env : CloseEnv) :
    closePosition mode price env = false ↔
      (mode = .market → closeWithMarketOrder env = false) ∧
      (mode ≠ .market →
        price = none ∨ env.limitPlace = none ∨
        ((∀ f, env.limitWait = some f → f.status ≠ .filled) ∧
          closeWithMarketOrder env = false)) := by
  unfold closePosition
  by_cases hm : mode = .market
  · simp [hm]
  · rw [if_neg hm]
    cases price with
    | none => simp [hm]
    | some pr =>
      cases hl : env.limitPlace with
      | none => simp [hm]
      | some lo =>
        cases hw : env.limitWait with
        | none => simp [hm]
        | some f =>
          by_cases hf : f.status = .filled <;> simp [hm, hf]

/-- C2: a failed flatten halts the system, and a flatten failure is the
only condition that stops the run.  A fill whose close fails makes the
bot emit exactly the close, a cancel-all, the stream disconnect and the
timer stop, and clears the running flag; across every modelled handler
the running flag can only be cleared by a closePosition call that
returned false (fill handling, watchdog close, and the periodic check
loop - the spread guard, the replace path and the requote path always
preserve it); and closePosition returns false exactly when the closing
order is rejected or never confirms filled, including the market
fallback of the limit mode. -/
theorem flatten_failure_halts :
    (∀ (cfg : BotConfig) (side : OrderSide) (qty : ℚ) (now : ℤ)
      (renv : ReplaceEnv) (s : BotState),
      (handleOrderFilled cfg side qty now false renv s).2
          = [.closePosition (opposite side) qty, .cancelAll, .disconnect, .stopTimers] ∧
      (handleOrderFilled cfg side qty now false renv s).1.isRunning = false ∧
      (handleOrderFilled cfg side qty now false renv s).1.stopRequested = true) ∧
    (∀ (cfg : BotConfig) (side : OrderSide) (qty : ℚ) (now : ℤ) (closed : Bool)
      (renv : ReplaceEnv) (s : BotState),
      (handleOrderFilled cfg side qty now closed renv s).1.isRunning
        = (closed && s.isRunning)) ∧
    (∀ (cfg : BotConfig) (pos : ℚ) (closed : Bool) (envBuy envSell : Option OrderInfo)
      (s : BotState),
      (closeDetectedPosition cfg pos closed envBuy envSell s).1.isRunning
        = (closed && s.isRunning)) ∧
    (∀ (cfg : BotConfig) (newPosition : ℚ) (now : ℤ) (closed : Bool)
      (envBuy envSell : Option OrderInfo) (s : BotState),
      (handlePositionUpdate cfg newPosition now closed envBuy envSell s).1.isRunning
        = ((!positionFlipDetected s.position newPosition || closed) && s.isRunning)) ∧
    (∀ (cfg : BotConfig) (now : ℤ) (env : TickEnv) (s : BotState),
      (checkAndReplaceOrders cfg now env s).1.isRunning
        = ((!positionCheckFires cfg now env s || env.closeResult) && s.isRunning)) ∧
    (∀ (cfg : BotConfig) (now : ℤ) (bid ask : ℚ) (s : BotState),
      (checkBinanceSpread cfg now bid ask s).1.isRunning = s.isRunning) ∧
    (∀ (cfg : BotConfig) (side : OrderSide) (now : ℤ) (env : ReplaceEnv) (s : BotState),
      (replaceOrder cfg side now env s).1.isRunning = s.isRunning) ∧
    (∀ (cfg : BotConfig) (envBuy envSell : Option OrderInfo) (s : BotState),
      (placeInitialOrders cfg envBuy envSell s).1.isRunning = s.isRunning) ∧
    (∀ (mode : CloseMode) (price : Option ℚ) (env : CloseEnv),
      closePosition mode price env = false ↔
        (mode = .market → closeWithMarketOrder env = false) ∧
        (mode ≠ .market →
          price = none ∨ env.limitPlace = none ∨
          ((∀ f, env.limitWait = some f → f.status ≠ .filled) ∧
            closeWithMarketOrder env = false))) := by
  refine ⟨?_, handleOrderFilled_isRunning, closeDetectedPosition_isRunning,
    handlePositionUpdate_isRunning, checkAndReplaceOrders_isRunning,
    checkBinanceSpread_isRunning, replaceOrder_isRunning,
    placeInitialOrders_isRunning, closePosition_false_iff⟩
  intro cfg side qty now renv s
  exact ⟨rfl, rfl, rfl⟩

/-- C10: a thrown position query is returned as exactly zero, which the
nonzero-position safety test treats as flat, and a whole check-loop tick
behaves identically whether the query threw or reported a confirmed zero
position. -/
theorem failed_position_query_reads_zero :
    getCurrentPosition none = 0 ∧
    getCurrentPosition none = getCurrentPosition (some 0) ∧
    nonZeroPositionDetected (getCurrentPosition none) = false ∧
    (∀ (cfg : BotConfig) (now : ℤ) (env : TickEnv) (s : BotState),
      checkAndReplaceOrders cfg now { env with posResult := none } s
        = checkAndReplaceOrders cfg now { env with posResult := some 0 } s) := by
  refine ⟨rfl, rfl, by norm_num [nonZeroPositionDetected, ratAbs, getCurrentPosition], ?_⟩
  intro cfg now env s
  rfl

theorem calculateSpreadQuantile_singleton_interpolation (sorted : List ℚ) (q : ℚ)
    (h1 : sorted.length = 1) :
    quantileInterpolation sorted q = sorted.getD 0 0 := by
  unfold quantileInterpolation
  rw [h1]
  norm_num

/-- C6 helper: for a nonempty sample list and a quantile already inside
[0, 1], the implementation's quantile is exactly the linear interpolation
between the order statistics of the ascending sort at the weighted rank
(n - 1) * quantile. -/
theorem calculateSpreadQuantile_eq_interpolation (samples : List ℚ) (q : ℚ)
    (hne : samples ≠ []) (h0 : 0 ≤ q) (h1 : q ≤ 1) :
    calculateSpreadQuantile samples q = quantileInterpolation (sortQ samples) q := by
  unfold calculateSpreadQuantile
  rw [if_neg hne]
  have hclamp : min 1 (max 0 q) = q := by
    rw [max_eq_right h0, min_eq_right h1]
  rw [hclamp]
  by_cases hlen : (sortQ samples).length = 1
  · rw [if_pos hlen, calculateSpreadQuantile_singleton_interpolation _ _ hlen]
  · rw [if_neg hlen]
    rfl

/-- C6: the dynamic max threshold is the configured quantile of the most
recent quantileSamples computed by linear interpolation at rank
(n - 1) * quantile: on [1,2,3,4,5] it yields 3 at quantile 0.5 and 4.6 at
quantile 0.9, in general it equals the interpolation between the sorted
order statistics, and with no samples available it falls back to the
configured absolute max spread. -/
theorem spread_quantile_interpolation :
    calculateSpreadQuantile [1, 2, 3, 4, 5] (1/2) = 3 ∧
    calculateSpreadQuantile [1, 2, 3, 4, 5] (9/10) = 23/5 ∧
    (∀ (samples : List ℚ) (q : ℚ), samples ≠ [] → 0 ≤ q → q ≤ 1 →
      calculateSpreadQuantile samples q = quantileInterpolation (sortQ samples) q) ∧
    (∀ (sg : SpreadGuardConfig) (history : List ℚ),
      getRecentSamples sg.quantileSamples history = [] →
      calculateDynamicMaxSpread sg history = sg.maxSpreadBp) := by
  refine ⟨?_, ?_, calculateSpreadQuantile_eq_interpolation, ?_⟩
  · simp only [calculateSpreadQuantile, sortQ, insertSorted]
    norm_num
    rfl
  · have hc : (⌈(18/5 : ℚ)⌉ : ℤ) = 4 := by
      rw [Int.ceil_eq_iff]
      norm_num
    simp only [calculateSpreadQuantile, sortQ, insertSorted]
    norm_num [hc]
    show (4 : ℚ) + (5 - 4) * (18/5 - (3:ℕ)) = 23/5
    norm_num
  · intro sg history h
    unfold calculateDynamicMaxSpread
    rw [h]
    norm_num [calculateSpreadQuantile]

/-- Witness for spread_quantile_interpolation: the interpolation form of
the quantile evaluated on the concrete sample list [1,2,3,4,5] at
quantile 0.5. -/
theorem spread_quantile_interpolation_witness :
    ([1, 2, 3, 4, 5] : List ℚ) ≠ [] ∧ (0 : ℚ) ≤ 1/2 ∧ (1/2 : ℚ) ≤ 1 ∧
    calculateSpreadQuantile [1, 2, 3, 4, 5] (1/2)
      = quantileInterpolation (sortQ [1, 2, 3, 4, 5]) (1/2) := by
  refine ⟨by simp, by norm_num, by norm_num, ?_⟩
  exact spread_quantile_interpolation.2.2.1 [1, 2, 3, 4, 5] (1/2)
    (by simp) (by norm_num) (by norm_num)

theorem abs_roundHalfUp_sub (x : ℚ) : |((roundHalfUp x : ℤ) : ℚ) - x| ≤ 1/2 := by
  unfold roundHalfUp
  split
  · have h1 := Int.floor_le (x + 1/2)
    have h2 := Int.sub_one_lt_floor (x + 1/2)
    rw [abs_le]
    constructor <;> linarith
  · have h1 := Int.floor_le (-x + 1/2)
    have h2 := Int.sub_one_lt_floor (-x + 1/2)
    rw [abs_le]
    constructor <;> push_cast <;> linarith

theorem roundToTickSize_close (tick price : ℚ) (htick : 0 < tick) :
    |roundToTickSize tick price - price| ≤ tick / 2 := by
  unfold roundToTickSize
  have hne : tick ≠ 0 := ne_of_gt htick
  have hprice : price = price / tick * tick := (div_mul_cancel₀ price hne).symm
  calc |((roundHalfUp (price / tick) : ℤ) : ℚ) * tick - price|
      = |(((roundHalfUp (price / tick) : ℤ) : ℚ) - price / tick) * tick| := by
        rw [sub_mul]
        rw [← hprice]
    _ = |((roundHalfUp (price / tick) : ℤ) : ℚ) - price / tick| * tick := by
        rw [abs_mul, abs_of_pos htick]
    _ ≤ 1/2 * tick := by
        have := abs_roundHalfUp_sub (price / tick)
        nlinarith [abs_nonneg (((roundHalfUp (price / tick) : ℤ) : ℚ) - price / tick)]
    _ = tick / 2 := by ring

/-- C8 counterexample: for a buy at reference price 10000 with target
distance 100 bp and tick size 0.0001, the order price is exactly 9900
(no rounding error at all), yet the evaluator's distance
|ref - p| / p * 10000 = 10000/99 differs from the target 100 bp by
100/99 bp, which exceeds one tick's worth of distance whether the tick is
expressed at the order price (1/9900 bp) or at the reference price
(1/10000 bp). -/
theorem evaluator_distance_exceeds_tick :
    ¬ (|distanceBp 10000 (calculateOrderPrice (1/10000) .buy 10000 100) - 100|
        ≤ (1/10000) / calculateOrderPrice (1/10000) .buy 10000 100 * 10000) ∧
    ¬ (|distanceBp 10000 (calculateOrderPrice (1/10000) .buy 10000 100) - 100|
        ≤ (1/10000) / 10000 * 10000) := by
  have hp : calculateOrderPrice (1/10000) .buy 10000 100 = 9900 := by
    norm_num [calculateOrderPrice, roundToTickSize, roundHalfUp]
  rw [hp]
  have hd : distanceBp 10000 9900 = 10000/99 := by
    norm_num [distanceBp, ratAbs]
  rw [hd]
  have habs : |(10000/99 : ℚ) - 100| = 100/99 := by
    rw [show (10000/99 - 100 : ℚ) = 100/99 by norm_num]
    exact abs_of_pos (by norm_num)
  rw [habs]
  constructor <;> norm_num

/-- C8 amended: for every side, positive reference price, positive tick
and nonnegative target distance, the priced order's distance measured
against the reference price (|ref - p| / ref * 10000, the formula of the
specification's property) equals the target distance within one tick's
worth of distance (10000 * tick / ref bp; the rounding error is in fact
at most half of that). -/
theorem order_distance_within_one_tick (side : OrderSide) (ref tick t : ℚ)
    (href : 0 < ref) (htick : 0 < tick) (ht : 0 ≤ t) :
    |referenceDistanceBp ref (calculateOrderPrice tick side ref t) - t|
      ≤ tick / ref * 10000 := by
  have hrne : ref ≠ 0 := ne_of_gt href
  set multiplier : ℚ := if side = .buy then 1 - t / 10000 else 1 + t / 10000 with hmul
  set raw : ℚ := ref * multiplier with hraw
  have hcalc : calculateOrderPrice tick side ref t = roundToTickSize tick raw := rfl
  set p : ℚ := roundToTickSize tick raw with hp
  have hclose : |p - raw| ≤ tick / 2 := roundToTickSize_close tick raw htick
  have habsraw : |ref - raw| = ref * t / 10000 := by
    cases side with
    | buy =>
      have h : ref - raw = ref * t / 10000 := by
        rw [hraw, hmul, if_pos rfl]
        ring
      rw [h]
      exact abs_of_nonneg (by positivity)
    | sell =>
      have h : ref - raw = -(ref * t / 10000) := by
        rw [hraw, hmul, if_neg (by decide)]
        ring
      rw [h, abs_neg]
      exact abs_of_nonneg (by positivity)
  have ht' : t = |ref - raw| / ref * 10000 := by
    rw [habsraw]
    field_simp
    ring
  have key : referenceDistanceBp ref p - t = (|ref - p| - |ref - raw|) / ref * 10000 := by
    rw [referenceDistanceBp, ratAbs_eq_abs]
    rw [ht']
    ring
  rw [hcalc, key]
  have h1 : |(|ref - p| - |ref - raw|) / ref * 10000|
      = |(|ref - p| - |ref - raw|)| / ref * 10000 := by
    rw [abs_mul, abs_div, abs_of_pos href]
    norm_num
  rw [h1]
  have h2 : |(|ref - p| - |ref - raw|)| ≤ |p - raw| := by
    calc |(|ref - p| - |ref - raw|)|
        ≤ |(ref - p) - (ref - raw)| := abs_abs_sub_abs_le_abs_sub _ _
      _ = |p - raw| := by rw [show (ref - p) - (ref - raw) = -(p - raw) by ring, abs_neg]
  calc |(|ref - p| - |ref - raw|)| / ref * 10000
      ≤ (tick / 2) / ref * 10000 := by
        have h3 := le_trans h2 hclose
        gcongr
    _ ≤ tick / ref * 10000 := by
        gcongr
        linarith

/-- Witness for order_distance_within_one_tick: a buy at reference 100
with target 50 bp and tick 0.5. -/
theorem order_distance_within_one_tick_witness :
    (0 : ℚ) < 100 ∧ (0 : ℚ) < 1/2 ∧ (0 : ℚ) ≤ 50 ∧
    |referenceDistanceBp 100 (calculateOrderPrice (1/2) .buy 100 50) - 50|
      ≤ (1/2) / 100 * 10000 :=
  ⟨by norm_num, by norm_num, by norm_num,
   order_distance_within_one_tick .buy 100 (1/2) 50 (by norm_num) (by norm_num) (by norm_num)⟩

theorem spreadVariance_nonneg (l : List ℚ) : 0 ≤ spreadVariance l := by
  unfold spreadVariance
  apply div_nonneg
  · apply List.sum_nonneg
    intro x hx
    obtain ⟨v, _, rfl⟩ := List.mem_map.mp hx
    positivity
  · positivity

/-- C7: the volatility is the standard deviation of the most recent
volLookbackSamples (square root of the mean squared deviation from the
sample mean, divisor n); the regime is high exactly when the volatility
is at least the high threshold, low exactly when it is at most the low
threshold and normal otherwise; and the selected regime multipliers
scale both the jump threshold and the dynamic max threshold. -/
theorem volatility_regime_classification :
    (∀ l : List ℚ, 2 ≤ l.length →
      calculateSpreadVolatility l
        = Real.sqrt (((l.map (fun v => (v - listMean l) ^ 2)).sum / (l.length : ℚ) : ℚ) : ℝ)) ∧
    (∀ l : List ℚ, 2 ≤ l.length →
      0 ≤ calculateSpreadVolatility l ∧
      calculateSpreadVolatility l ^ 2 = ((spreadVariance l : ℚ) : ℝ)) ∧
    (∀ (v : ℝ) (hi lo : ℚ), ((lo : ℚ) : ℝ) < ((hi : ℚ) : ℝ) →
      (determineSpreadRegime v hi lo = .high ↔ ((hi : ℚ) : ℝ) ≤ v) ∧
      (determineSpreadRegime v hi lo = .low ↔ v ≤ ((lo : ℚ) : ℝ)) ∧
      (determineSpreadRegime v hi lo = .normal ↔
        ((lo : ℚ) : ℝ) < v ∧ v < ((hi : ℚ) : ℝ))) ∧
    (∀ (sg : SpreadGuardConfig) (samples : List ℚ),
      (getRegimeAdjustments sg samples).volatility
          = calculateSpreadVolatility (getRecentSamples sg.volLookbackSamples samples) ∧
      (getRegimeAdjustments sg samples).regime
          = determineSpreadRegime
              (calculateSpreadVolatility (getRecentSamples sg.volLookbackSamples samples))
              sg.volHighThresholdBp sg.volLowThresholdBp ∧
      ((getRegimeAdjustments sg samples).regime = .high →
        (getRegimeAdjustments sg samples).jumpMultiplier = sg.highVolJumpMultiplier ∧
        (getRegimeAdjustments sg samples).maxMultiplier = sg.highVolMaxMultiplier) ∧
      ((getRegimeAdjustments sg samples).regime = .low →
        (getRegimeAdjustments sg samples).jumpMultiplier = sg.lowVolJumpMultiplier ∧
        (getRegimeAdjustments sg samples).maxMultiplier = sg.lowVolMaxMultiplier) ∧
      ((getRegimeAdjustments sg samples).regime = .normal →
        (getRegimeAdjustments sg samples).jumpMultiplier = 1 ∧
        (getRegimeAdjustments sg samples).maxMultiplier = 1)) ∧
    (∀ (sg : SpreadGuardConfig) (samples : List ℚ) (basisDiffActive : Bool),
      spreadGuardThresholds sg samples basisDiffActive
        = (sg.jumpSpreadBp * (getRegimeAdjustments sg samples).jumpMultiplier *
            (if basisDiffActive then sg.basisDiffGuardMultiplier else 1),
           calculateDynamicMaxSpread sg samples *
            (getRegimeAdjustments sg samples).maxMultiplier *
            (if basisDiffActive then sg.basisDiffGuardMultiplier else 1))) := by
  refine ⟨?_, ?_, ?_, ?_, ?_⟩
  · intro l hl
    unfold calculateSpreadVolatility
    rw [if_neg (by omega)]
    rfl
  · intro l hl
    unfold calculateSpreadVolatility
    rw [if_neg (by omega)]
    refine ⟨Real.sqrt_nonneg _, ?_⟩
    rw [Real.sq_sqrt]
    exact_mod_cast spreadVariance_nonneg l
  · intro v hi lo hlt
    unfold determineSpreadRegime
    refine ⟨?_, ?_, ?_⟩
    · constructor
      · intro h
        by_contra hc
        rw [if_neg hc] at h
        split at h <;> simp at h
      · intro h
        rw [if_pos h]
    · constructor
      · intro h
        by_cases h1 : ((hi : ℚ) : ℝ) ≤ v
        · rw [if_pos h1] at h
          simp at h
        · rw [if_neg h1] at h
          by_contra hc
          rw [if_neg hc] at h
          simp at h
      · intro h
        rw [if_neg (by linarith), if_pos h]
    · constructor
      · intro h
        by_cases h1 : ((hi : ℚ) : ℝ) ≤ v
        · rw [if_pos h1] at h
          simp at h
        · rw [if_neg h1] at h
          by_cases h2 : v ≤ ((lo : ℚ) : ℝ)
          · rw [if_pos h2] at h
            simp at h
          · exact ⟨lt_of_not_le h2, lt_of_not_le h1⟩
      · intro h
        rw [if_neg (by linarith [h.2]), if_neg (by linarith [h.1])]
  · intro sg samples
    unfold getRegimeAdjustments
    cases hreg : determineSpreadRegime
      (calculateSpreadVolatility (getRecentSamples sg.volLookbackSamples samples))
      sg.volHighThresholdBp sg.volLowThresholdBp <;>
      simp [hreg]
  · intro sg samples basisDiffActive
    rfl

theorem calculateSpreadVolatility_pair : calculateSpreadVolatility [0, 2] = 1 := by
  unfold calculateSpreadVolatility
  rw [if_neg (by norm_num)]
  have h : spreadVariance [0, 2] = 1 := by
    norm_num [spreadVariance, listMean]
  rw [h]
  push_cast
  exact Real.sqrt_one

/-- Witness for volatility_regime_classification: samples [0, 2] have
volatility exactly 1, which with thresholds low = 0.5 and high = 2 is
classified as the normal regime. -/
theorem volatility_regime_classification_witness :
    2 ≤ ([0, 2] : List ℚ).length ∧
    (((1/2 : ℚ) : ℝ)) < ((2 : ℚ) : ℝ) ∧
    calculateSpreadVolatility [0, 2] ^ 2 = ((spreadVariance [0, 2] : ℚ) : ℝ) ∧
    determineSpreadRegime (calculateSpreadVolatility [0, 2]) 2 (1/2) = .normal := by
  refine ⟨by norm_num, by norm_num, (volatility_regime_classification.2.1 [0, 2] (by norm_num)).2, ?_⟩
  refine ((volatility_regime_classification.2.2.1 (calculateSpreadVolatility [0, 2]) 2 (1/2)
    (by norm_num)).2.2).mpr ?_
  rw [calculateSpreadVolatility_pair]
  constructor <;> norm_num

/-- C5 amended: when quoting is live and the guard is not cooling down,
checkBinanceSpread fires exactly when (the baseline is positive and the
spread exceeds it by at least the regime- and basis-adjusted jump
threshold) or the spread reaches the adjusted max threshold; on firing it
cancels all orders, clears both slots and suspends until
now + cooldownMs; otherwise it only records the sample; and the guard is
suspended at exactly the instants strictly before the cooldown deadline
(so it is active again at cooldownStart + cooldownMs and not before). -/
theorem spread_guard_fire (cfg : BotConfig) (now : ℤ) (bid ask : ℚ) (s : BotState)
    (h1 : s.isRunning = true) (h2 : s.stopRequested = false)
    (h3 : 0 < bid) (h4 : 0 < ask)
    (h5 : ¬ now < s.spreadGuardCooldownUntil) :
    (let spreadBp := spreadBpOf bid ask
     let samples := updateSpreadSamples cfg.sg s.spreadSamples spreadBp
     let baseline := calculateSpreadBaseline cfg.sg samples
     let basisActive := decide (0 < cfg.sg.basisDiffBp) &&
        decide (cfg.sg.basisDiffBp ≤ basisDiffBpOf s.markPrice ((bid + ask) / 2))
     let thr := spreadGuardThresholds cfg.sg samples basisActive
     ((checkBinanceSpread cfg now bid ask s).2 = [.cancelAll] ↔
        ((0 < baseline ∧ thr.1 ≤ spreadBp - baseline) ∨ thr.2 ≤ spreadBp)) ∧
     (((0 < baseline ∧ thr.1 ≤ spreadBp - baseline) ∨ thr.2 ≤ spreadBp) →
        (checkBinanceSpread cfg now bid ask s).1.buyOrder = none ∧
        (checkBinanceSpread cfg now bid ask s).1.sellOrder = none ∧
        (checkBinanceSpread cfg now bid ask s).1.spreadGuardCooldownUntil
          = now + (cfg.sg.cooldownMs : ℤ)) ∧
     (¬ ((0 < baseline ∧ thr.1 ≤ spreadBp - baseline) ∨ thr.2 ≤ spreadBp) →
        checkBinanceSpread cfg now bid ask s = ({ s with spreadSamples := samples }, []))) ∧
    (∀ (t : ℤ) (s' : BotState),
      isSpreadGuardCoolingDown t s' = true ↔ t < s'.spreadGuardCooldownUntil) := by
  constructor
  · intro spreadBp samples baseline basisActive thr
    have hguard1 : (!s.isRunning || s.stopRequested) = false := by rw [h1, h2]; rfl
    have hguard2 : ¬ (bid ≤ 0 ∨ ask ≤ 0) := by
      push_neg
      exact ⟨h3, h4⟩
    unfold checkBinanceSpread
    rw [hguard1]
    simp only [Bool.false_eq_true, if_false, if_neg hguard2]
    rw [if_neg (by simpa [isSpreadGuardCoolingDown] using h5)]
    cases hfire : (decide (0 < calculateSpreadBaseline cfg.sg
          (updateSpreadSamples cfg.sg s.spreadSamples (spreadBpOf bid ask))) &&
        decide ((spreadGuardThresholds cfg.sg
            (updateSpreadSamples cfg.sg s.spreadSamples (spreadBpOf bid ask))
            (decide (0 < cfg.sg.basisDiffBp) &&
              decide (cfg.sg.basisDiffBp ≤ basisDiffBpOf s.markPrice ((bid + ask) / 2)))).1
          ≤ spreadBpOf bid ask - calculateSpreadBaseline cfg.sg
              (updateSpreadSamples cfg.sg s.spreadSamples (spreadBpOf bid ask))) ||
        decide ((spreadGuardThresholds cfg.sg
            (updateSpreadSamples cfg.sg s.spreadSamples (spreadBpOf bid ask))
            (decide (0 < cfg.sg.basisDiffBp) &&
              decide (cfg.sg.basisDiffBp ≤ basisDiffBpOf s.markPrice ((bid + ask) / 2)))).2
          ≤ spreadBpOf bid ask)) with
    | true =>
      rw [if_pos rfl]
      simp only [Bool.or_eq_true, Bool.and_eq_true, decide_eq_true_eq] at hfire
      exact ⟨iff_of_true rfl hfire, fun _ => ⟨rfl, rfl, rfl⟩, fun hc => absurd hfire hc⟩
    | false =>
      rw [if_neg (by simp)]
      have hnot : ¬ ((0 < calculateSpreadBaseline cfg.sg
            (updateSpreadSamples cfg.sg s.spreadSamples (spreadBpOf bid ask)) ∧
          (spreadGuardThresholds cfg.sg
              (updateSpreadSamples cfg.sg s.spreadSamples (spreadBpOf bid ask))
              (decide (0 < cfg.sg.basisDiffBp) &&
                decide (cfg.sg.basisDiffBp ≤ basisDiffBpOf s.markPrice ((bid + ask) / 2)))).1
            ≤ spreadBpOf bid ask - calculateSpreadBaseline cfg.sg
                (updateSpreadSamples cfg.sg s.spreadSamples (spreadBpOf bid ask))) ∨
          (spreadGuardThresholds cfg.sg
              (updateSpreadSamples cfg.sg s.spreadSamples (spreadBpOf bid ask))
              (decide (0 < cfg.sg.basisDiffBp) &&
                decide (cfg.sg.basisDiffBp ≤ basisDiffBpOf s.markPrice ((bid + ask) / 2)))).2
            ≤ spreadBpOf bid ask) := by
        intro hp
        have hx : (decide (0 < calculateSpreadBaseline cfg.sg
              (updateSpreadSamples cfg.sg s.spreadSamples (spreadBpOf bid ask))) &&
            decide ((spreadGuardThresholds cfg.sg
                (updateSpreadSamples cfg.sg s.spreadSamples (spreadBpOf bid ask))
                (decide (0 < cfg.sg.basisDiffBp) &&
                  decide (cfg.sg.basisDiffBp ≤ basisDiffBpOf s.markPrice ((bid + ask) / 2)))).1
              ≤ spreadBpOf bid ask - calculateSpreadBaseline cfg.sg
                  (updateSpreadSamples cfg.sg s.spreadSamples (spreadBpOf bid ask))) ||
            decide ((spreadGuardThresholds cfg.sg
                (updateSpreadSamples cfg.sg s.spreadSamples (spreadBpOf bid ask))
                (decide (0 < cfg.sg.basisDiffBp) &&
                  decide (cfg.sg.basisDiffBp ≤ basisDiffBpOf s.markPrice ((bid + ask) / 2)))).2
              ≤ spreadBpOf bid ask)) = true := by
          simpa using hp
        rw [hfire] at hx
        exact Bool.false_ne_true hx
      exact ⟨iff_of_false (by simp) hnot, fun hc => absurd hc hnot, fun _ => rfl⟩
  · intro t s'
    simp [isSpreadGuardCoolingDown]

/-- The state of the C5 counterexample: running, one open buy order, a
prior crossed-book spread sample of -5 bp, no cooldown. -/
def spreadStateNegBaseline : BotState := { stateSample with spreadSamples := [-5] }

theorem spread_guard_sample_thresholds (l : List ℚ) :
    spreadGuardThresholds cfgSample.sg l false = (5, 50) := by
  have hlen : (getRecentSamples cfgSample.sg.volLookbackSamples l).length < 2 := by
    show (getRecentSamples 1 l).length < 2
    unfold getRecentSamples
    rw [if_neg (by norm_num)]
    rw [List.length_drop]
    omega
  have hvol : calculateSpreadVolatility (getRecentSamples cfgSample.sg.volLookbackSamples l)
      = 0 := by
    unfold calculateSpreadVolatility
    rw [if_pos hlen]
  have hreg : determineSpreadRegime 0 cfgSample.sg.volHighThresholdBp
      cfgSample.sg.volLowThresholdBp = .normal := by
    unfold determineSpreadRegime
    rw [if_neg (by norm_num [cfgSample, sgSample]), if_neg (by norm_num [cfgSample, sgSample])]
  have hadj : getRegimeAdjustments cfgSample.sg l = ⟨.normal, 0, 1, 1⟩ := by
    unfold getRegimeAdjustments
    simp only [hvol, hreg]
  have hdyn : calculateDynamicMaxSpread cfgSample.sg l = 50 := by
    norm_num [calculateDynamicMaxSpread, getRecentSamples, calculateSpreadQuantile,
      cfgSample, sgSample]
  unfold spreadGuardThresholds
  rw [hadj, hdyn]
  norm_num [cfgSample, sgSample]

/-- C5 counterexample: the claim's fire condition "spreadBp - baseline is
at least the adjusted jump threshold, or spreadBp is at least the
adjusted max threshold" holds in this live, non-cooling state (spread
5 bp, baseline 0 bp after a crossed-book sample of -5 bp, jump threshold
5 bp), yet checkBinanceSpread does not fire: no cancel is issued, the buy
slot is kept and no cooldown starts, because the code additionally
requires a strictly positive baseline for the jump branch. -/
theorem spread_guard_fire_counterexample :
    (let bid : ℚ := 99975/1000
     let ask : ℚ := 100025/1000
     let spreadBp := spreadBpOf bid ask
     let samples := updateSpreadSamples cfgSample.sg spreadStateNegBaseline.spreadSamples spreadBp
     let baseline := calculateSpreadBaseline cfgSample.sg samples
     let basisActive := decide (0 < cfgSample.sg.basisDiffBp) &&
        decide (cfgSample.sg.basisDiffBp
          ≤ basisDiffBpOf spreadStateNegBaseline.markPrice ((bid + ask) / 2))
     let thr := spreadGuardThresholds cfgSample.sg samples basisActive
     thr.1 ≤ spreadBp - baseline ∧
     spreadStateNegBaseline.isRunning = true ∧
     spreadStateNegBaseline.stopRequested = false ∧
     (0 : ℚ) < bid ∧ (0 : ℚ) < ask ∧
     ¬ (1000 : ℤ) < spreadStateNegBaseline.spreadGuardCooldownUntil ∧
     (checkBinanceSpread cfgSample 1000 bid ask spreadStateNegBaseline).2 = [] ∧
     (checkBinanceSpread cfgSample 1000 bid ask spreadStateNegBaseline).1.buyOrder
        = some orderSample ∧
     (checkBinanceSpread cfgSample 1000 bid ask spreadStateNegBaseline).1.spreadGuardCooldownUntil
        = 0) := by
  intro bid ask spreadBp samples baseline basisActive thr
  have hsp : spreadBpOf (99975/1000) (100025/1000) = 5 := by
    norm_num [spreadBpOf]
  have hprev : spreadStateNegBaseline.spreadSamples = [-5] := rfl
  have hsamp : updateSpreadSamples cfgSample.sg [-5] 5 = [-5, 5] := by
    norm_num [updateSpreadSamples, cfgSample, sgSample]
  have hbase : calculateSpreadBaseline cfgSample.sg [-5, 5] = 0 := by
    norm_num [calculateSpreadBaseline, getRecentSamples, cfgSample, sgSample]
  have hbasis : (decide (0 < cfgSample.sg.basisDiffBp) &&
      decide (cfgSample.sg.basisDiffBp
        ≤ basisDiffBpOf spreadStateNegBaseline.markPrice ((99975/1000 + 100025/1000) / 2)))
      = false := by
    simp [cfgSample, sgSample]
  have hout : checkBinanceSpread cfgSample 1000 (99975/1000) (100025/1000) spreadStateNegBaseline
      = ({ spreadStateNegBaseline with spreadSamples := [-5, 5] }, []) := by
    unfold checkBinanceSpread
    rw [show (!spreadStateNegBaseline.isRunning || spreadStateNegBaseline.stopRequested)
        = false from rfl]
    simp only [Bool.false_eq_true, if_false]
    rw [if_neg (by norm_num : ¬ ((99975/1000 : ℚ) ≤ 0 ∨ (100025/1000 : ℚ) ≤ 0))]
    simp only [hsp, hprev, hsamp, hbase, hbasis, spread_guard_sample_thresholds]
    rw [if_neg (by norm_num [isSpreadGuardCoolingDown, spreadStateNegBaseline, stateSample])]
    rw [if_neg (by norm_num)]
  refine ⟨?_, rfl, rfl, by norm_num, by norm_num,
    by norm_num [spreadStateNegBaseline, stateSample], ?_, ?_, ?_⟩
  · show thr.1 ≤ spreadBp - baseline
    simp only [thr, spreadBp, samples, baseline, basisActive, bid, ask, hsp, hprev, hsamp,
      hbase, hbasis, spread_guard_sample_thresholds]
    norm_num
  · rw [hout]
  · rw [hout]
    rfl
  · rw [hout]
    rfl

/-- The state of the C5 witness scenario: running with a 2 bp baseline
history (a step function about to jump to 20 bp). -/
def spreadStateStep : BotState := { stateSample with spreadSamples := [2, 2] }

/-- Witness for spread_guard_fire: after a 2 bp baseline history, the
sample where the spread steps to 20 bp satisfies the jump condition
(20 - 11 = 9 at least the 5 bp adjusted jump threshold), so the theorem
yields the cancel-all, the cleared slots and the cooldown until
1000 + 5000; the guard is still suspended at 5999 and active again at
exactly 6000. -/
theorem spread_guard_fire_witness :
    spreadStateStep.isRunning = true ∧ spreadStateStep.stopRequested = false ∧
    (0 : ℚ) < 999/10 ∧ (0 : ℚ) < 1001/10 ∧
    ¬ (1000 : ℤ) < spreadStateStep.spreadGuardCooldownUntil ∧
    (checkBinanceSpread cfgSample 1000 (999/10) (1001/10) spreadStateStep).2
      = [.cancelAll] ∧
    (checkBinanceSpread cfgSample 1000 (999/10) (1001/10) spreadStateStep).1.buyOrder
      = none ∧
    (checkBinanceSpread cfgSample 1000 (999/10) (1001/10) spreadStateStep).1.sellOrder
      = none ∧
    (checkBinanceSpread cfgSample 1000 (999/10) (1001/10)
        spreadStateStep).1.spreadGuardCooldownUntil = 1000 + (5000 : ℤ) ∧
    isSpreadGuardCoolingDown 5999
      (checkBinanceSpread cfgSample 1000 (999/10) (1001/10) spreadStateStep).1 = true ∧
    isSpreadGuardCoolingDown 6000
      (checkBinanceSpread cfgSample 1000 (999/10) (1001/10) spreadStateStep).1 = false := by
  have h1 : spreadStateStep.isRunning = true := rfl
  have h2 : spreadStateStep.stopRequested = false := rfl
  have h3 : (0 : ℚ) < 999/10 := by norm_num
  have h4 : (0 : ℚ) < 1001/10 := by norm_num
  have h5 : ¬ (1000 : ℤ) < spreadStateStep.spreadGuardCooldownUntil := by
    norm_num [spreadStateStep, stateSample]
  have hmain := spread_guard_fire cfgSample 1000 (999/10) (1001/10) spreadStateStep
    h1 h2 h3 h4 h5
  have hsp : spreadBpOf (999/10) (1001/10) = 20 := by
    norm_num [spreadBpOf]
  have hprev : spreadStateStep.spreadSamples = [2, 2] := rfl
  have hsamp : updateSpreadSamples cfgSample.sg [2, 2] 20 = [2, 20] := by
    norm_num [updateSpreadSamples, cfgSample, sgSample]
  have hbase : calculateSpreadBaseline cfgSample.sg [2, 20] = 11 := by
    norm_num [calculateSpreadBaseline, getRecentSamples, cfgSample, sgSample]
    simp
  have hbasis : (decide (0 < cfgSample.sg.basisDiffBp) &&
      decide (cfgSample.sg.basisDiffBp
        ≤ basisDiffBpOf spreadStateStep.markPrice ((999/10 + 1001/10) / 2)))
      = false := by
    simp [cfgSample, sgSample]
  have hfireProp : (0 < calculateSpreadBaseline cfgSample.sg
        (updateSpreadSamples cfgSample.sg spreadStateStep.spreadSamples
          (spreadBpOf (999/10) (1001/10))) ∧
      (spreadGuardThresholds cfgSample.sg
          (updateSpreadSamples cfgSample.sg spreadStateStep.spreadSamples
            (spreadBpOf (999/10) (1001/10)))
          (decide (0 < cfgSample.sg.basisDiffBp) &&
            decide (cfgSample.sg.basisDiffBp
              ≤ basisDiffBpOf spreadStateStep.markPrice ((999/10 + 1001/10) / 2)))).1
        ≤ spreadBpOf (999/10) (1001/10) - calculateSpreadBaseline cfgSample.sg
            (updateSpreadSamples cfgSample.sg spreadStateStep.spreadSamples
              (spreadBpOf (999/10) (1001/10)))) ∨
      (spreadGuardThresholds cfgSample.sg
          (updateSpreadSamples cfgSample.sg spreadStateStep.spreadSamples
            (spreadBpOf (999/10) (1001/10)))
          (decide (0 < cfgSample.sg.basisDiffBp) &&
            decide (cfgSample.sg.basisDiffBp
              ≤ basisDiffBpOf spreadStateStep.markPrice ((999/10 + 1001/10) / 2)))).2
        ≤ spreadBpOf (999/10) (1001/10) := by
    left
    rw [hsp, hprev, hsamp, hbase, hbasis, spread_guard_sample_thresholds]
    norm_num
  have hiff := hmain.1.1
  have heff := hmain.1.2.1 hfireProp
  have hacts : (checkBinanceSpread cfgSample 1000 (999/10) (1001/10) spreadStateStep).2
      = [.cancelAll] := hiff.mpr hfireProp
  refine ⟨h1, h2, h3, h4, h5, hacts, heff.1, heff.2.1,
    by rw [heff.2.2]; norm_num [cfgSample, sgSample], ?_, ?_⟩
  · rw [show isSpreadGuardCoolingDown 5999
        (checkBinanceSpread cfgSample 1000 (999/10) (1001/10) spreadStateStep).1
        = decide ((5999 : ℤ) < (checkBinanceSpread cfgSample 1000 (999/10) (1001/10)
            spreadStateStep).1.spreadGuardCooldownUntil) from rfl]
    rw [heff.2.2]
    norm_num [cfgSample, sgSample]
  · rw [show isSpreadGuardCoolingDown 6000
        (checkBinanceSpread cfgSample 1000 (999/10) (1001/10) spreadStateStep).1
        = decide ((6000 : ℤ) < (checkBinanceSpread cfgSample 1000 (999/10) (1001/10)
            spreadStateStep).1.spreadGuardCooldownUntil) from rfl]
    rw [heff.2.2]
    norm_num [cfgSample, sgSample]
